import Mathlib

/-
Verification of the blue-green deployment orchestrator implemented in
scripts/poe_commands.py.

The on-disk state the commands read and write (the releases directory, its
entries, and the releases/current symlink) is embedded as an explicit state
record.  Each command becomes a Lean function from state to state plus its
observable outputs (exit code, log messages, counters).  Paths are modelled
by their base names; the model assumes the project root itself contains no
symlinks, so resolving a path is the identity on its name.
-/

set_option maxRecDepth 4000

namespace AynaDeploy

/-- A directory entry of the releases directory, as produced by
Path.iterdir: the entry name and the value of Path.is_dir (which follows
symlinks). -/
structure DirEntry where
  name : String
  isDir : Bool
deriving DecidableEq, Repr

/-- State of the CURRENT_LINK path (releases/current).  A symlink records
its fully resolved target (the release directory name) together with
whether that target path exists; notSymlink is a plain file or directory
occupying the path. -/
inductive CurrentLinkState where
  | absent
  | notSymlink
  | symlink (target : String) (targetExists : Bool)
deriving DecidableEq, Repr

/-- The filesystem state relevant to the deployment commands. -/
structure Fs where
  releasesDirExists : Bool
  entries : List DirEntry
  current : CurrentLinkState
deriving DecidableEq, Repr

/-- Value of a nonempty all-digit character list, none otherwise. -/
def digitsVal (ds : List Char) : Option Nat :=
  if ds = [] then none
  else if ds.all (fun c => c.isDigit) then
    some (ds.foldl (fun a c => a * 10 + (c.toNat - 48)) 0)
  else none

/-- Python int(s) for a string of an optional sign followed by decimal
digits.  (Python int additionally accepts surrounding whitespace and
underscore digit separators; those forms never occur in release directory
names and are not needed by any claim.) -/
def pyIntChars : List Char → Option Int
  | [] => none
  | '-' :: ds => (digitsVal ds).map (fun n => -(n : Int))
  | '+' :: ds => (digitsVal ds).map (fun n => (n : Int))
  | ds => (digitsVal ds).map (fun n => (n : Int))

/-- item.name.startswith("v"). -/
def startsWithV (name : String) : Bool :=
  match name.data with
  | 'v' :: _ => true
  | _ => false

/-- The try/except int(item.name[1:]) pattern guarded by
item.name.startswith("v"): the version parsed from a directory name, or
none when the name is not of that shape. -/
def parseVersion (name : String) : Option Int :=
  match name.data with
  | 'v' :: rest => pyIntChars rest
  | _ => none

/-- CURRENT_LINK.exists(): Path.exists follows symlinks, so a broken
symlink reports as nonexistent. -/
def clExists : CurrentLinkState → Bool
  | .absent => false
  | .notSymlink => true
  | .symlink _ te => te

/-- CURRENT_LINK.is_symlink(). -/
def clIsSymlink : CurrentLinkState → Bool
  | .symlink _ _ => true
  | _ => false

/-- The read a consumer of CURRENT_LINK performs (the body of
get_current_release applied to a pointer state): the resolved target when
the path exists and is a symlink, otherwise none. -/
def readCurrent : CurrentLinkState → Option String
  | .symlink t true => some t
  | _ => none

/-- get_current_release (poe_commands.py lines 159-163). -/
def get_current_release (fs : Fs) : Option String :=
  readCurrent fs.current

/-- get_current_version (poe_commands.py lines 182-190). -/
def get_current_version (fs : Fs) : Option Int :=
  match get_current_release fs with
  | none => none
  | some n => parseVersion n

/-- The versions collected by the iterdir loops of get_next_version and
releases_cleanup: directories whose name parses as v followed by an
integer. -/
def parsedVersions (entries : List DirEntry) : List Int :=
  entries.filterMap (fun e => if e.isDir then parseVersion e.name else none)

/-- max of a list of integers, none when empty (Python max with its
default argument supplies the default only for the empty list). -/
def listMax? : List Int → Option Int
  | [] => none
  | v :: vs =>
    match listMax? vs with
    | none => some v
    | some m => some (max v m)

/-- get_next_version (poe_commands.py lines 166-179):
max(versions, default=0) + 1, or 1 when the releases directory is
missing. -/
def get_next_version (fs : Fs) : Int :=
  if fs.releasesDirExists then (listMax? (parsedVersions fs.entries)).getD 0 + 1
  else 1

/-- Insert into a descending-sorted list, keeping equal keys in their
original relative order (the stability Python list.sort guarantees). -/
def insDesc (key : α → Int) (x : α) : List α → List α
  | [] => [x]
  | y :: ys => if key y ≤ key x then x :: y :: ys else y :: insDesc key x ys

/-- Stable descending sort by an integer key, the model of
list.sort(key=..., reverse=True). -/
def sortDesc (key : α → Int) : List α → List α
  | [] => []
  | x :: xs => insDesc key x (sortDesc key xs)

/-- Boolean membership in a list of integers (the version in to_keep
test). -/
def intMem (v : Int) : List Int → Bool
  | [] => false
  | w :: ws => if v = w then true else intMem v ws

/-- The (version, name) pairs releases_cleanup collects from the releases
directory. -/
def parsedReleases (entries : List DirEntry) : List (Int × String) :=
  entries.filterMap (fun e =>
    if e.isDir then (parseVersion e.name).map (fun v => (v, e.name)) else none)

/-- The to_keep set of releases_cleanup: walking the descending-sorted
releases with their enumeration index, a version is kept when its index is
below keep or it equals the current version. -/
def toKeepList (keep : Int) (current : Option Int) :
    Nat → List (Int × String) → List Int
  | _, [] => []
  | i, (v, _) :: rest =>
    if (i : Int) < keep ∨ current = some v then
      v :: toKeepList keep current (i + 1) rest
    else toKeepList keep current (i + 1) rest

/-- releases_cleanup (poe_commands.py lines 517-549).  Returns the new
state together with the value of the removed counter, which the source
reports in its closing log line. -/
def releases_cleanup (keep : Int) (fs : Fs) : Fs × Nat :=
  if fs.releasesDirExists then
    let current := get_current_version fs
    let sorted := sortDesc (fun r => r.1) (parsedReleases fs.entries)
    let toKeep := toKeepList keep current 0 sorted
    let removedCount := (sorted.filter (fun r => !intMem r.1 toKeep)).length
    let entries := fs.entries.filter (fun e =>
      match (if e.isDir then parseVersion e.name else none) with
      | some v => intMem v toKeep
      | none => true)
    ({ fs with entries := entries }, removedCount)
  else (fs, 0)

/-- Leading-character test on raw character lists (str.startswith). -/
def startsWithChars : List Char → List Char → Bool
  | [], _ => true
  | _ :: _, [] => false
  | p :: ps, c :: cs => p = c && startsWithChars ps cs

/-- Split a character list at the first occurrence of a character; none
when the character does not occur. -/
def splitAtCharFirst (c : Char) : List Char → Option (List Char × List Char)
  | [] => none
  | d :: ds =>
    if d = c then some ([], ds)
    else
      match splitAtCharFirst c ds with
      | some (a, b) => some (d :: a, b)
      | none => none

/-- Python str.strip character class: drop the characters satisfying p
from both ends. -/
def stripWhile (p : Char → Bool) (l : List Char) : List Char :=
  ((l.dropWhile p).reverse.dropWhile p).reverse

/-- Whitespace stripped by str.strip() (the forms that can occur in an
env file line). -/
def isWs (c : Char) : Bool :=
  c = ' ' || c = '\t' || c = '\n' || c = '\r'

/-- The double-quote character. -/
def dquote : Char := Char.ofNat 34

/-- The single-quote character. -/
def squote : Char := Char.ofNat 39

/-- DATABASE_URL extraction from the env file (db_backup lines 481-486):
the first line starting with DATABASE_URL= yields everything after the
first equals sign, stripped of whitespace, then double quotes, then
single quotes. -/
def findDbUrl : List String → Option String
  | [] => none
  | line :: rest =>
    if startsWithChars "DATABASE_URL=".data line.data then
      some (String.mk (stripWhile (fun c => c = squote)
        (stripWhile (fun c => c = dquote)
          (stripWhile isWs (line.data.drop 13)))))
    else findDbUrl rest

/-- Maximal leading digit run of a character list and the remainder. -/
def digitsSplit : List Char → List Char × List Char
  | [] => ([], [])
  | c :: cs =>
    if c.isDigit then
      let (d, r) := digitsSplit cs
      (c :: d, r)
    else ([], c :: cs)

/-- The regex match of db_backup (line 493):
postgres(?:ql)?://([^:]+):([^@]+)@([^:]+):(\d+)/(.+) anchored at the
start.  Each negated class group is a maximal run stopping at the first
occurrence of its delimiter, the port is a maximal digit run that must be
followed by a slash, and the database name is the nonempty remainder. -/
def parsePgUrl (s : String) : Option (String × String × String × String × String) :=
  let afterScheme : Option (List Char) :=
    if startsWithChars "postgresql://".data s.data then some (s.data.drop 13)
    else if startsWithChars "postgres://".data s.data then some (s.data.drop 11)
    else none
  match afterScheme with
  | none => none
  | some rest =>
    match splitAtCharFirst ':' rest with
    | none => none
    | some (user, r1) =>
      if user = [] then none
      else
        match splitAtCharFirst '@' r1 with
        | none => none
        | some (pass, r2) =>
          if pass = [] then none
          else
            match splitAtCharFirst ':' r2 with
            | none => none
            | some (host, r3) =>
              if host = [] then none
              else
                match digitsSplit r3 with
                | (port, r4) =>
                  if port = [] then none
                  else
                    match r4 with
                    | '/' :: dbname =>
                      if dbname = [] then none
                      else some (String.mk user, String.mk pass, String.mk host,
                        String.mk port, String.mk dbname)
                    | _ => none

/-- Warning text for a missing DATABASE_URL. -/
def mWarnMissing : String := "Could not find DATABASE_URL, skipping backup"

/-- Warning text for a failed pg_dump. -/
def mWarnFailed : String := "Database backup failed"

/-- Warning text for an unparseable DATABASE_URL, truncated to its first
twenty characters as in the source f-string. -/
def mWarnParse (u : String) : String :=
  String.mk ("Could not parse DATABASE_URL: ".data ++ u.data.take 20 ++ "...".data)

/-- Outcome of the backup step: the warnings it logged and whether a dump
was written. -/
structure BackupResult where
  warnings : List String
  savedBackup : Bool
deriving DecidableEq, Repr

/-- db_backup (poe_commands.py lines 467-509).  envLines is the content
of the env file (none when no env file exists), dumpOk the outcome of the
pg_dump pipeline.  Every failure path logs a warning and returns; the
function is total. -/
def db_backup (envLines : Option (List String)) (dumpOk : Bool) : BackupResult :=
  let dbUrl :=
    match envLines with
    | none => none
    | some lines => findDbUrl lines
  match dbUrl with
  | none => ⟨[mWarnMissing], false⟩
  | some u =>
    if u = "" then ⟨[mWarnMissing], false⟩
    else
      match parsePgUrl u with
      | none => ⟨[mWarnParse u], false⟩
      | some _ => if dumpOk then ⟨[], true⟩ else ⟨[mWarnFailed], false⟩

/-- Outcomes of the external collaborators one deploy run interacts with:
the env file content and dump outcome seen by the backup step, the exit
status of each provisioning subprocess, and the two health probes. -/
structure World where
  envLines : Option (List String)
  dumpOk : Bool
  gitOk : Bool
  pipOk : Bool
  migrateOk : Bool
  staticOk : Bool
  webHealthy : Bool
  apiHealthy : Bool
deriving DecidableEq, Repr

/-- Terminal branch a deploy run ends in. -/
inductive DeployOutcome where
  | mkdirFailed
  | stepFailed (stage : String)
  | committed
  | healthFailRolledBack
  | healthFailNoPrevious
deriving DecidableEq, Repr

/-- Result of one deploy run: final state, process exit code, terminal
branch, the log_error and log_warning lines emitted, how many times
services_reload ran, and whether releases_cleanup ran. -/
structure DeployResult where
  fs : Fs
  exitCode : Nat
  outcome : DeployOutcome
  errors : List String
  warnings : List String
  reloads : Nat
  pruneRan : Bool
deriving DecidableEq, Repr

/-- The error text of the health-check failure branch (line 662). -/
def mHealthFailed : String := "Health check failed! Rolling back..."

/-- The error text rollback emits when CURRENT_LINK yields no current
release (line 677). -/
def mNoCurrent : String := "No current release found"

/-- The error text rollback emits when no other release exists
(line 692): the one message of this program that surfaces the
rollback-unavailable condition. -/
def mNoPrevious : String := "No previous release to roll back to"

/-- Release directory name for a version, the f-string v{version}. -/
def vName (v : Int) : String := "v" ++ toString v

/-- deploy (poe_commands.py lines 557-668) after the backup step: release
directory creation, the four provisioning subprocesses, the symlink
switch, reload, health check, and the commit/rollback fork.  A failing
run_cmd with check=True raises CalledProcessError; the unhandled
exception aborts the process with exit code 1 and the state as it stood.
release_dir.mkdir() likewise raises when the directory already exists. -/
def deployCore (w : World) (fs : Fs) : DeployResult :=
  let version := get_next_version fs
  let relName := vName version
  let fs1 : Fs := { fs with releasesDirExists := true }
  if fs1.entries.any (fun e => e.name == relName) then
    { fs := fs1, exitCode := 1, outcome := .mkdirFailed, errors := [],
      warnings := [], reloads := 0, pruneRan := false }
  else
    let fs2 : Fs := { fs1 with entries := fs1.entries ++ [⟨relName, true⟩] }
    if w.gitOk = false then
      { fs := fs2, exitCode := 1, outcome := .stepFailed "copy code",
        errors := [], warnings := [], reloads := 0, pruneRan := false }
    else if w.pipOk = false then
      { fs := fs2, exitCode := 1, outcome := .stepFailed "install dependencies",
        errors := [], warnings := [], reloads := 0, pruneRan := false }
    else if w.migrateOk = false then
      { fs := fs2, exitCode := 1, outcome := .stepFailed "migrate",
        errors := [], warnings := [], reloads := 0, pruneRan := false }
    else if w.staticOk = false then
      { fs := fs2, exitCode := 1, outcome := .stepFailed "collectstatic",
        errors := [], warnings := [], reloads := 0, pruneRan := false }
    else
      let previous := get_current_release fs2
      let fs3 : Fs := { fs2 with current := .symlink relName true }
      if w.webHealthy && w.apiHealthy then
        let pruned := releases_cleanup 10 fs3
        { fs := pruned.1, exitCode := 0, outcome := .committed, errors := [],
          warnings := [], reloads := 1, pruneRan := true }
      else
        match previous with
        | some p =>
          { fs := { fs3 with current := .symlink p true }, exitCode := 1,
            outcome := .healthFailRolledBack, errors := [mHealthFailed],
            warnings := ["Rolled back to " ++ p], reloads := 2,
            pruneRan := false }
        | none =>
          { fs := fs3, exitCode := 1, outcome := .healthFailNoPrevious,
            errors := [mHealthFailed], warnings := [], reloads := 1,
            pruneRan := false }

/-- deploy (poe_commands.py lines 557-668).  The backup step (lines
581-585) only emits warnings; nothing after it reads its outcome, so the
full run is the core pipeline with the backup warnings prefixed in
emission order. -/
def deploy (skipBackup : Bool) (w : World) (fs : Fs) : DeployResult :=
  let bw := if skipBackup then [] else (db_backup w.envLines w.dumpOk).warnings
  let r := deployCore w fs
  { r with warnings := bw ++ r.warnings }

/-- Result of the standalone rollback command. -/
structure RollbackResult where
  fs : Fs
  exitCode : Nat
  reloaded : Bool
  errors : List String
deriving DecidableEq, Repr

/-- The sort key int(x.name[1:]) of rollback, defined on names whose tail
parses; the default is never reached because rollback aborts first when
any candidate fails to parse. -/
def rollbackKey (e : DirEntry) : Int :=
  (pyIntChars (e.name.data.drop 1)).getD 0

/-- The candidate list of rollback (lines 681-689): directories whose
name starts with v other than the resolved current release.  Entry paths
are compared to the resolved current path; under the no-alias path model
that is a comparison of names. -/
def rollbackOthers (fs : Fs) (cur : String) : List DirEntry :=
  fs.entries.filter (fun e => e.isDir && startsWithV e.name && !(e.name == cur))

/-- rollback (poe_commands.py lines 671-704).  When sorted() applies the
key int(name[1:]) to a candidate whose tail is not an integer, the
ValueError is unhandled and the process dies with exit code 1 leaving the
state untouched. -/
def rollback (fs : Fs) : RollbackResult :=
  match get_current_release fs with
  | none => { fs := fs, exitCode := 1, reloaded := false, errors := [mNoCurrent] }
  | some cur =>
    let others := rollbackOthers fs cur
    if others.any (fun e => (pyIntChars (e.name.data.drop 1)).isNone) then
      { fs := fs, exitCode := 1, reloaded := false, errors := [] }
    else
      match sortDesc rollbackKey others with
      | [] => { fs := fs, exitCode := 1, reloaded := false, errors := [mNoPrevious] }
      | prev :: _ =>
        { fs := { fs with current := .symlink prev.name true },
          exitCode := 0, reloaded := true, errors := [] }

/-- The sequence of CURRENT_LINK states a deploy symlink switch passes
through (lines 627-629): when the link path exists or is a symlink it is
first unlinked, then a fresh symlink to the new release is created.  Each
list element is an interleaving point a concurrent reader can observe. -/
def deploySwitchStates (st : CurrentLinkState) (newRel : String) :
    List CurrentLinkState :=
  if clExists st || clIsSymlink st then
    [st, .absent, .symlink newRel true]
  else [st, .symlink newRel true]

/-- The sequence of CURRENT_LINK states the standalone rollback repoint
passes through (lines 699-700): an unconditional unlink followed by a
fresh symlink. -/
def rollbackSwitchStates (st : CurrentLinkState) (prev : String) :
    List CurrentLinkState :=
  [st, .absent, .symlink prev true]

/-- The spec names a RollbackUnavailable condition that must be surfaced
to the operator.  A deploy run reports it when some emitted message is
the one this program uses for that condition. -/
def reportsRollbackUnavailable (r : DeployResult) : Prop :=
  mNoPrevious ∈ r.errors ∨ mNoPrevious ∈ r.warnings

/-- Entries get_next_version does not ignore: directories whose name
parses as a version. -/
def relevantEntry (e : DirEntry) : Bool :=
  e.isDir && (parseVersion e.name).isSome

-- ----------------------------------------------------------------------
-- Concrete scenario states
-- ----------------------------------------------------------------------

/-- Releases v1 through v10, current pointing at v7. -/
def c2Fs : Fs :=
  ⟨true,
    [⟨"v1", true⟩, ⟨"v2", true⟩, ⟨"v3", true⟩, ⟨"v4", true⟩, ⟨"v5", true⟩,
     ⟨"v6", true⟩, ⟨"v7", true⟩, ⟨"v8", true⟩, ⟨"v9", true⟩, ⟨"v10", true⟩],
    .symlink "v7" true⟩

/-- Two releases, current pointing at v2. -/
def c3Fs : Fs :=
  ⟨true, [⟨"v1", true⟩, ⟨"v2", true⟩], .symlink "v2" true⟩

/-- A fresh host: no releases directory, no current pointer. -/
def emptyFs : Fs := ⟨false, [], .absent⟩

/-- A world where every external step succeeds except the web health
probe. -/
def c4World : World :=
  ⟨some ["DATABASE_URL=postgres://u:pw@h:5432/db"], true,
    true, true, true, true, false, true⟩

/-- A mixed releases directory: one release, a directory whose name does
not parse, a file, and an unrelated directory. -/
def c7Fs : Fs :=
  ⟨true, [⟨"v3", true⟩, ⟨"v3junk", true⟩, ⟨"v9", false⟩, ⟨"note", true⟩],
    .absent⟩

end AynaDeploy

namespace AynaDeploy

-- ----------------------------------------------------------------------
-- Helper lemmas
-- ----------------------------------------------------------------------

theorem insDesc_mem_iff {α : Type} (key : α → Int) (x a : α) :
    ∀ (l : List α), a ∈ insDesc key x l ↔ (a = x ∨ a ∈ l) := by
  intro l
  induction l with
  | nil => simp [insDesc]
  | cons y ys ih =>
    by_cases h : key y ≤ key x
    · simp [insDesc, h, List.mem_cons]
    · simp only [insDesc, if_neg h, List.mem_cons, ih]
      tauto

theorem sortDesc_mem_iff {α : Type} (key : α → Int) (a : α) :
    ∀ (l : List α), a ∈ sortDesc key l ↔ a ∈ l := by
  intro l
  induction l with
  | nil => simp [sortDesc]
  | cons x xs ih =>
    simp [sortDesc, insDesc_mem_iff, ih, List.mem_cons]

theorem insDesc_ne_nil {α : Type} (key : α → Int) (x : α) :
    ∀ (l : List α), insDesc key x l ≠ [] := by
  intro l
  cases l with
  | nil => simp [insDesc]
  | cons y ys => simp only [insDesc]; split <;> simp

theorem sortDesc_eq_nil {α : Type} (key : α → Int) :
    ∀ {l : List α}, sortDesc key l = [] → l = [] := by
  intro l h
  cases l with
  | nil => rfl
  | cons x xs => exact absurd h (insDesc_ne_nil key x (sortDesc key xs))

theorem pairwise_insDesc {α : Type} (key : α → Int) (x : α) :
    ∀ {l : List α}, List.Pairwise (fun a b => key b ≤ key a) l →
      List.Pairwise (fun a b => key b ≤ key a) (insDesc key x l) := by
  intro l
  induction l with
  | nil => intro _; simp [insDesc]
  | cons y ys ih =>
    intro hp
    rw [List.pairwise_cons] at hp
    obtain ⟨hy, hys⟩ := hp
    by_cases h : key y ≤ key x
    · simp only [insDesc, if_pos h]
      rw [List.pairwise_cons]
      refine ⟨?_, ?_⟩
      · intro b hb
        rcases List.mem_cons.mp hb with rfl | hb2
        · exact h
        · exact le_trans (hy b hb2) h
      · rw [List.pairwise_cons]
        exact ⟨hy, hys⟩
    · simp only [insDesc, if_neg h]
      rw [List.pairwise_cons]
      refine ⟨?_, ih hys⟩
      intro b hb
      rcases (insDesc_mem_iff key x b ys).mp hb with rfl | hb2
      · exact le_of_lt (lt_of_not_le h)
      · exact hy b hb2

theorem pairwise_sortDesc {α : Type} (key : α → Int) :
    ∀ (l : List α), List.Pairwise (fun a b => key b ≤ key a) (sortDesc key l) := by
  intro l
  induction l with
  | nil => simp [sortDesc]
  | cons x xs ih => exact pairwise_insDesc key x ih

theorem sortDesc_head_max {α : Type} (key : α → Int) {l : List α} {x : α}
    {xs : List α} (h : sortDesc key l = x :: xs) : ∀ a ∈ l, key a ≤ key x := by
  intro a ha
  have hmem : a ∈ sortDesc key l := (sortDesc_mem_iff key a l).mpr ha
  rw [h] at hmem
  rcases List.mem_cons.mp hmem with rfl | hmem2
  · exact le_refl _
  · have hp := pairwise_sortDesc key l
    rw [h, List.pairwise_cons] at hp
    exact hp.1 a hmem2

theorem mem_toKeepList_current (keep : Int) (c : Int) :
    ∀ (l : List (Int × String)) (i : Nat) (nm : String), (c, nm) ∈ l →
      c ∈ toKeepList keep (some c) i l := by
  intro l
  induction l with
  | nil => intro i nm h; cases h
  | cons p rest ih =>
    intro i nm h
    obtain ⟨v, s⟩ := p
    rcases List.mem_cons.mp h with heq | hmem
    · injection heq with h1 h2
      subst h1
      simp only [toKeepList]
      split
      · exact List.mem_cons_self _ _
      · next hcond => simp at hcond
    · have hrec := ih (i + 1) nm hmem
      simp only [toKeepList]
      split
      · exact List.mem_cons_of_mem _ hrec
      · exact hrec

theorem intMem_true_of_mem (c : Int) :
    ∀ {l : List Int}, c ∈ l → intMem c l = true := by
  intro l
  induction l with
  | nil => intro h; cases h
  | cons w ws ih =>
    intro h
    simp only [intMem]
    by_cases hc : c = w
    · rw [if_pos hc]
    · rw [if_neg hc]
      exact ih ((List.mem_cons.mp h).resolve_left hc)

theorem listMax?_spec : ∀ {l : List Int} {m : Int}, listMax? l = some m →
    m ∈ l ∧ ∀ v ∈ l, v ≤ m := by
  intro l
  induction l with
  | nil => intro m h; cases h
  | cons v vs ih =>
    intro m h
    cases hm : listMax? vs with
    | none =>
      simp only [listMax?, hm] at h
      injection h with h
      subst h
      have hnil : vs = [] := by
        cases vs with
        | nil => rfl
        | cons a b =>
          simp only [listMax?] at hm
          cases hb : listMax? b <;> rw [hb] at hm <;> cases hm
      subst hnil
      exact ⟨List.mem_cons_self _ _, by intro w hw; simp at hw; rw [hw]⟩
    | some m2 =>
      simp only [listMax?, hm] at h
      injection h with h
      subst h
      obtain ⟨hmem, hle⟩ := ih hm
      refine ⟨?_, ?_⟩
      · rcases max_choice v m2 with h1 | h1 <;> rw [h1]
        · exact List.mem_cons_self _ _
        · exact List.mem_cons_of_mem _ hmem
      · intro w hw
        rcases List.mem_cons.mp hw with rfl | hw2
        · exact le_max_left _ _
        · exact le_trans (hle w hw2) (le_max_right _ _)

theorem parsedVersions_filter :
    ∀ (l : List DirEntry), parsedVersions (l.filter relevantEntry) = parsedVersions l := by
  intro l
  induction l with
  | nil => rfl
  | cons e es ih =>
    by_cases hrel : relevantEntry e = true
    · simp only [List.filter_cons, hrel, if_true, parsedVersions, List.filterMap_cons]
      cases hf : (if e.isDir then parseVersion e.name else none) with
      | none => exact ih
      | some v => exact congrArg (List.cons v) ih
    · have hf : (if e.isDir then parseVersion e.name else none) = none := by
        cases hd : e.isDir with
        | false => simp
        | true =>
          cases hp : parseVersion e.name with
          | none => simp [hp]
          | some v =>
            rw [relevantEntry, hd, hp] at hrel
            simp at hrel
      rw [Bool.not_eq_true] at hrel
      simp only [List.filter_cons, hrel, if_false, parsedVersions,
        List.filterMap_cons, hf]
      exact ih

theorem db_backup_warnings_cases (el : Option (List String)) (d : Bool) :
    ((db_backup el d).warnings = [] ∧ (db_backup el d).savedBackup = true) ∨
    (db_backup el d).warnings = [mWarnMissing] ∨
    (db_backup el d).warnings = [mWarnFailed] ∨
    ∃ u, (db_backup el d).warnings = [mWarnParse u] := by
  unfold db_backup
  cases el with
  | none => simp
  | some lines =>
    cases h : findDbUrl lines with
    | none => simp [h]
    | some u =>
      simp only [h]
      by_cases hu : u = ""
      · simp [hu]
      · rw [if_neg hu]
        cases hp : parsePgUrl u with
        | none =>
          simp only [hp]
          right; right; right
          exact ⟨u, rfl⟩
        | some q =>
          simp only [hp]
          cases d <;> simp

theorem mNoPrevious_ne_mWarnParse (u : String) : mNoPrevious ≠ mWarnParse u := by
  intro h
  have h1 : mNoPrevious.data.head? = some 'N' := rfl
  have h2 : (mWarnParse u).data.head? = some 'C' := rfl
  rw [h, h2] at h1
  injection h1 with h1
  exact absurd h1 (by decide)

theorem mNoPrevious_not_mem_backup_warnings (el : Option (List String)) (d : Bool) :
    mNoPrevious ∉ (db_backup el d).warnings := by
  rcases db_backup_warnings_cases el d with ⟨h, _⟩ | h | h | ⟨u, h⟩ <;> rw [h]
  · exact List.not_mem_nil _
  · intro hmem
    exact absurd (List.mem_singleton.mp hmem) (by decide)
  · intro hmem
    exact absurd (List.mem_singleton.mp hmem) (by decide)
  · intro hmem
    exact mNoPrevious_ne_mWarnParse u (List.mem_singleton.mp hmem)

-- ----------------------------------------------------------------------
-- Claim theorems
-- ----------------------------------------------------------------------

/-- C1: the claim states that the pointer switch of deploy and rollback is
atomic, so that a reader of CurrentPointer at any interleaving point
observes either the old release or the new one and never an absent
pointer.  The code instead unlinks the symlink and then creates a fresh
one: this theorem evaluates the micro-step sequences of both switches
from one release to another and shows that the reader at the intermediate
interleaving point observes no pointer at all, contradicting the claim
and the atomicity the specification requires. -/
theorem c1_switch_exposes_absent_pointer :
    (deploySwitchStates (.symlink "v1" true) "v2").map readCurrent =
      [some "v1", none, some "v2"] ∧
    (rollbackSwitchStates (.symlink "v2" true) "v1").map readCurrent =
      [some "v2", none, some "v1"] := by decide

/-- C2: with releases v1 through v10 on disk and the current pointer at
v7, pruning with keep set to 3 removes exactly v1 through v6, retains
exactly v7 through v10, and the removed count it computes and reports is
6. -/
theorem c2_prune_scenario :
    (releases_cleanup 3 c2Fs).2 = 6 ∧
    ((releases_cleanup 3 c2Fs).1).entries =
      [⟨"v7", true⟩, ⟨"v8", true⟩, ⟨"v9", true⟩, ⟨"v10", true⟩] ∧
    ((releases_cleanup 3 c2Fs).1).current = .symlink "v7" true ∧
    ((releases_cleanup 3 c2Fs).1).releasesDirExists = true := by decide

/-- C3: for every state, every keep parameter (including zero and even
negative values) and every entry of the releases directory whose parsed
version is the currently active version, releases_cleanup keeps that
entry: the currently active release is never deleted. -/
theorem c3_prune_never_deletes_current (keep : Int) (fs : Fs) (c : Int)
    (e : DirEntry) (hcur : get_current_version fs = some c)
    (he : e ∈ fs.entries) (hd : e.isDir = true)
    (hp : parseVersion e.name = some c) :
    e ∈ ((releases_cleanup keep fs).1).entries := by
  unfold releases_cleanup
  by_cases hex : fs.releasesDirExists = true
  · rw [if_pos hex]
    apply List.mem_filter.mpr
    refine ⟨he, ?_⟩
    simp only [hd, if_true, hp]
    rw [hcur]
    apply intMem_true_of_mem
    apply mem_toKeepList_current keep c _ 0 e.name
    rw [sortDesc_mem_iff]
    apply List.mem_filterMap.mpr
    exact ⟨e, he, by simp [hd, hp]⟩
  · rw [if_neg hex]
    exact he

/-- Witness for C3 at a concrete state: keep zero, releases v1 and v2,
current pointer at v2; the v2 directory survives the prune. -/
theorem c3_witness : (⟨"v2", true⟩ : DirEntry) ∈ ((releases_cleanup 0 c3Fs).1).entries :=
  c3_prune_never_deletes_current 0 c3Fs 2 ⟨"v2", true⟩ (by decide) (by decide)
    rfl (by decide)

/-- C7: get_next_version returns 1 when the releases directory is absent,
returns 1 when no entry parses as a release directory, otherwise returns
one plus the maximum parsed version (which is a parsed version and bounds
every parsed version), and it is invariant under discarding the ignored
entries, namely the non-directories and the names that fail to parse.
The function is total, so it never fails. -/
theorem c7_next_version (fs : Fs) :
    (fs.releasesDirExists = false → get_next_version fs = 1) ∧
    (parsedVersions fs.entries = [] → get_next_version fs = 1) ∧
    (∀ m, fs.releasesDirExists = true →
      listMax? (parsedVersions fs.entries) = some m →
      get_next_version fs = m + 1 ∧ m ∈ parsedVersions fs.entries ∧
        ∀ v ∈ parsedVersions fs.entries, v ≤ m) ∧
    get_next_version fs =
      get_next_version ⟨fs.releasesDirExists, fs.entries.filter relevantEntry,
        fs.current⟩ := by
  refine ⟨?_, ?_, ?_, ?_⟩
  · intro h
    simp [get_next_version, h]
  · intro h
    by_cases hex : fs.releasesDirExists = true <;>
      simp [get_next_version, hex, h, listMax?]
  · intro m hex hm
    exact ⟨by simp [get_next_version, hex, hm], (listMax?_spec hm).1,
      (listMax?_spec hm).2⟩
  · simp [get_next_version, parsedVersions_filter]

/-- Witness for C7 at a concrete state: one release v3, one directory
whose name does not parse, one file and one unrelated directory; the next
version is 4. -/
theorem c7_witness : get_next_version c7Fs = 4 ∧
    (3 : Int) ∈ parsedVersions c7Fs.entries := by
  have h := (c7_next_version c7Fs).2.2.1 3 rfl (by decide)
  exact ⟨h.1, h.2.1⟩

/-- C9: get_current_release returns none exactly when the current link is
absent, is present but not a symlink, or is a symlink whose target does
not exist; when it is a symlink with an existing target it returns the
resolved target.  The function is total, so it never raises. -/
theorem c9_current_release (fs : Fs) :
    (get_current_release fs = none ↔
      fs.current = .absent ∨ fs.current = .notSymlink ∨
        ∃ t, fs.current = .symlink t false) ∧
    (∀ t, fs.current = .symlink t true → get_current_release fs = some t) := by
  constructor
  · cases h : fs.current with
    | absent => simp [get_current_release, readCurrent, h]
    | notSymlink => simp [get_current_release, readCurrent, h]
    | symlink t te =>
      cases te
      · simp only [get_current_release, readCurrent, h]
        simp
      · simp [get_current_release, readCurrent, h]
  · intro t h
    simp [get_current_release, readCurrent, h]

/-- Witness for C9 at a concrete state: a broken symlink (target v7
missing) reads as no current release. -/
theorem c9_witness : get_current_release ⟨true, [], .symlink "v7" false⟩ = none :=
  (c9_current_release ⟨true, [], .symlink "v7" false⟩).1.mpr
    (Or.inr (Or.inr ⟨"v7", rfl⟩))

/-- C5: when the release directory is freshly allocatable and the
migration subprocess fails (after successful code copy and dependency
install), the deploy aborts at the migrate stage with exit code 1, the
current pointer is exactly what it was before the run, and the partially
built release directory is still present on disk. -/
theorem c5_migrate_failure (fs : Fs) (w : World) (skipB : Bool)
    (hfresh : fs.entries.any (fun e => e.name == vName (get_next_version fs)) = false)
    (hgit : w.gitOk = true) (hpip : w.pipOk = true)
    (hmig : w.migrateOk = false) :
    (deploy skipB w fs).exitCode = 1 ∧
    (deploy skipB w fs).fs.current = fs.current ∧
    (⟨vName (get_next_version fs), true⟩ : DirEntry) ∈ (deploy skipB w fs).fs.entries ∧
    (deploy skipB w fs).outcome = .stepFailed "migrate" ∧
    (deploy skipB w fs).reloads = 0 ∧
    (deploy skipB w fs).pruneRan = false := by
  have hcore : deployCore w fs =
      { fs := Fs.mk true (fs.entries ++ [⟨vName (get_next_version fs), true⟩])
          fs.current,
        exitCode := 1, outcome := .stepFailed "migrate", errors := [],
        warnings := [], reloads := 0, pruneRan := false } := by
    unfold deployCore
    simp [hfresh, hgit, hpip, hmig]
  simp [deploy, hcore, List.mem_append]

/-- Witness for C5 at a concrete state: one release v1 currently active,
migration of v2 fails, the pointer stays at v1 and the v2 directory
remains. -/
theorem c5_witness :
    (deploy false ⟨none, true, true, true, false, true, true, true⟩ c3Fs).exitCode = 1 ∧
    (deploy false ⟨none, true, true, true, false, true, true, true⟩ c3Fs).fs.current =
      .symlink "v2" true ∧
    (⟨"v3", true⟩ : DirEntry) ∈
      (deploy false ⟨none, true, true, true, false, true, true, true⟩ c3Fs).fs.entries := by
  have h := c5_migrate_failure c3Fs ⟨none, true, true, true, false, true, true, true⟩
    false (by decide) rfl rfl rfl
  exact ⟨h.1, h.2.1, h.2.2.1⟩

/-- C4 counterexample: a first-ever deploy on an empty host whose health
check fails does exit 1 and does leave CurrentPointer at the new release,
but the only message it emits is the generic health-check error, whose
text even announces a rollback; no message surfaces the
rollback-unavailable condition (the message this program uses for that
condition elsewhere is never emitted, and no warning is emitted at all).
The claim that the orchestrator reports the rollback-unavailable
condition is therefore false at this input. -/
theorem c4_counterexample :
    (deploy false c4World emptyFs).exitCode = 1 ∧
    (deploy false c4World emptyFs).fs.current = .symlink "v1" true ∧
    (deploy false c4World emptyFs).errors = [mHealthFailed] ∧
    (deploy false c4World emptyFs).warnings = [] ∧
    ¬ reportsRollbackUnavailable (deploy false c4World emptyFs) := by
  refine ⟨by decide, by decide, by decide, by decide, ?_⟩
  exact (by decide : ¬ (mNoPrevious ∈ (deploy false c4World emptyFs).errors ∨
    mNoPrevious ∈ (deploy false c4World emptyFs).warnings))

/-- C4 amended: if a deploy is the very first deployment (no previous
release existed before activation) and the health check fails, the
orchestrator logs the generic health-check failure error (whose text
announces a rollback even though none is attempted), does not report the
rollback-unavailable condition, leaves CurrentPointer pointed at the
newly activated release without attempting any pointer change, and exits
with code 1. -/
theorem c4_first_deploy_health_fail (fs : Fs) (w : World) (skipB : Bool)
    (hfresh : fs.entries.any (fun e => e.name == vName (get_next_version fs)) = false)
    (hprev : get_current_release fs = none)
    (hgit : w.gitOk = true) (hpip : w.pipOk = true) (hmig : w.migrateOk = true)
    (hstatic : w.staticOk = true)
    (hhealth : (w.webHealthy && w.apiHealthy) = false) :
    (deploy skipB w fs).exitCode = 1 ∧
    (deploy skipB w fs).fs.current = .symlink (vName (get_next_version fs)) true ∧
    (deploy skipB w fs).outcome = .healthFailNoPrevious ∧
    (deploy skipB w fs).errors = [mHealthFailed] ∧
    ¬ reportsRollbackUnavailable (deploy skipB w fs) := by
  rw [get_current_release] at hprev
  have hcore : deployCore w fs =
      { fs := Fs.mk true (fs.entries ++ [⟨vName (get_next_version fs), true⟩])
          (.symlink (vName (get_next_version fs)) true),
        exitCode := 1, outcome := .healthFailNoPrevious,
        errors := [mHealthFailed], warnings := [], reloads := 1,
        pruneRan := false } := by
    unfold deployCore
    simp [hfresh, hgit, hpip, hmig, hstatic, hhealth, get_current_release, hprev]
  refine ⟨by simp [deploy, hcore], by simp [deploy, hcore],
    by simp [deploy, hcore], by simp [deploy, hcore], ?_⟩
  intro hru
  rcases hru with h | h
  · rw [show (deploy skipB w fs).errors = [mHealthFailed] from by
      simp [deploy, hcore]] at h
    exact absurd (List.mem_singleton.mp h) (by decide)
  · rw [show (deploy skipB w fs).warnings =
      (if skipB then [] else (db_backup w.envLines w.dumpOk).warnings) from by
        simp [deploy, hcore]] at h
    cases skipB
    · rw [if_neg (by simp)] at h
      exact mNoPrevious_not_mem_backup_warnings _ _ h
    · rw [if_pos rfl] at h
      exact List.not_mem_nil _ h

/-- Witness for C4 amended at a concrete state: first deploy with the
backup skipped, web probe unhealthy. -/
theorem c4_witness :
    (deploy true c4World emptyFs).exitCode = 1 ∧
    (deploy true c4World emptyFs).outcome = .healthFailNoPrevious := by
  have h := c4_first_deploy_health_fail emptyFs c4World true (by decide) rfl
    rfl rfl rfl rfl (by decide)
  exact ⟨h.1, h.2.2.1⟩

/-- C10: when a previous release exists and the health check fails, the
rollback action of deploy repoints CurrentPointer back to the previous
release and reloads services a second time; the health-failed release
directory is left on disk exactly as built (the entry list is the old one
plus the new directory, so nothing was deleted), no retention pruning
runs, and the process exits 1. -/
theorem c10_health_fail_rollback (fs : Fs) (w : World) (skipB : Bool) (p : String)
    (hfresh : fs.entries.any (fun e => e.name == vName (get_next_version fs)) = false)
    (hprev : get_current_release fs = some p)
    (hgit : w.gitOk = true) (hpip : w.pipOk = true) (hmig : w.migrateOk = true)
    (hstatic : w.staticOk = true)
    (hhealth : (w.webHealthy && w.apiHealthy) = false) :
    (deploy skipB w fs).exitCode = 1 ∧
    (deploy skipB w fs).outcome = .healthFailRolledBack ∧
    (deploy skipB w fs).fs.current = .symlink p true ∧
    (deploy skipB w fs).fs.entries =
      fs.entries ++ [⟨vName (get_next_version fs), true⟩] ∧
    (deploy skipB w fs).pruneRan = false ∧
    (deploy skipB w fs).reloads = 2 ∧
    ("Rolled back to " ++ p) ∈ (deploy skipB w fs).warnings := by
  rw [get_current_release] at hprev
  have hcore : deployCore w fs =
      { fs := Fs.mk true (fs.entries ++ [⟨vName (get_next_version fs), true⟩])
          (.symlink p true),
        exitCode := 1, outcome := .healthFailRolledBack,
        errors := [mHealthFailed], warnings := ["Rolled back to " ++ p],
        reloads := 2, pruneRan := false } := by
    unfold deployCore
    simp [hfresh, hgit, hpip, hmig, hstatic, hhealth, get_current_release, hprev]
  simp [deploy, hcore, List.mem_append]

/-- Witness for C10 at a concrete state: v2 currently active, deploy of
v3 fails its health check, and the pointer returns to v2 with the v3
directory still present. -/
theorem c10_witness :
    (deploy false ⟨none, true, true, true, true, true, false, true⟩ c3Fs).fs.current =
      .symlink "v2" true ∧
    (deploy false ⟨none, true, true, true, true, true, false, true⟩ c3Fs).fs.entries =
      [⟨"v1", true⟩, ⟨"v2", true⟩, ⟨"v3", true⟩] ∧
    (deploy false ⟨none, true, true, true, true, true, false, true⟩ c3Fs).pruneRan =
      false := by
  have h := c10_health_fail_rollback c3Fs
    ⟨none, true, true, true, true, true, false, true⟩ false "v2" (by decide) rfl
    rfl rfl rfl rfl (by decide)
  exact ⟨h.2.2.1, h.2.2.2.1, h.2.2.2.2.1⟩

/-- C8: every run of the backup step either saves a dump or emits exactly
one warning and returns normally (the function is total); the three
failure modes, a missing DATABASE_URL variable, an unparseable connection
string, and a failing dump command, each produce their warning; and a
deploy run with the backup step enabled has the same exit code, outcome,
final state and errors as the same run with the backup skipped, its
warnings being exactly the backup warnings followed by the rest, so a
backup failure never aborts a deploy and the run always proceeds to the
provisioning steps. -/
theorem c8_backup_never_fatal (el : Option (List String)) (d : Bool)
    (w : World) (fs : Fs) :
    ((db_backup el d).savedBackup = true ∨ (db_backup el d).warnings.length = 1) ∧
    (db_backup (some ["SECRET_KEY=x"]) true).warnings = [mWarnMissing] ∧
    (db_backup (some ["DATABASE_URL=mysql://u:pw@h:1/d"]) true).warnings =
      [mWarnParse "mysql://u:pw@h:1/d"] ∧
    (db_backup (some ["DATABASE_URL=postgres://u:pw@h:5432/db"]) false).warnings =
      [mWarnFailed] ∧
    (deploy false w fs).exitCode = (deploy true w fs).exitCode ∧
    (deploy false w fs).outcome = (deploy true w fs).outcome ∧
    (deploy false w fs).fs = (deploy true w fs).fs ∧
    (deploy false w fs).errors = (deploy true w fs).errors ∧
    (deploy false w fs).warnings =
      (db_backup w.envLines w.dumpOk).warnings ++ (deploy true w fs).warnings := by
  refine ⟨?_, by decide, by decide, by decide, rfl, rfl, rfl, rfl, rfl⟩
  rcases db_backup_warnings_cases el d with ⟨_, hs⟩ | h | h | ⟨u, h⟩
  · exact Or.inl hs
  · exact Or.inr (by rw [h]; rfl)
  · exact Or.inr (by rw [h]; rfl)
  · exact Or.inr (by rw [h]; rfl)

/-- C6: the standalone rollback command.  When no current release
resolves, it exits 1 without touching the state.  When a current release
resolves: with no other release directory present it reports the
rollback-unavailable condition and exits 1 without touching the state,
and with at least one other release directory present it repoints
CurrentPointer to the candidate of highest version among all release
directories other than the current one, reloads services and exits 0,
changing nothing else.  The well-formedness hypothesis says every
v-prefixed directory name parses, the shape the release naming pattern
guarantees (a non-parsing name would crash the sort key instead). -/
theorem c6_rollback_repoints (fs : Fs)
    (hwf : ∀ e ∈ fs.entries, e.isDir = true → startsWithV e.name = true →
      (pyIntChars (e.name.data.drop 1)).isSome = true) :
    (get_current_release fs = none →
      rollback fs =
        { fs := fs, exitCode := 1, reloaded := false, errors := [mNoCurrent] }) ∧
    (∀ cur, get_current_release fs = some cur →
      ((rollbackOthers fs cur = [] →
        rollback fs =
          { fs := fs, exitCode := 1, reloaded := false, errors := [mNoPrevious] }) ∧
       (rollbackOthers fs cur ≠ [] → ∃ prev,
         prev ∈ rollbackOthers fs cur ∧
         (∀ e ∈ rollbackOthers fs cur, rollbackKey e ≤ rollbackKey prev) ∧
         rollback fs =
           { fs := { fs with current := .symlink prev.name true },
             exitCode := 0, reloaded := true, errors := [] }))) := by
  constructor
  · intro h
    unfold rollback
    rw [h]
  · intro cur hcur
    have hnone : (rollbackOthers fs cur).any
        (fun e => (pyIntChars (e.name.data.drop 1)).isNone) = false := by
      rw [Bool.eq_false_iff]
      intro hany
      rw [List.any_eq_true] at hany
      obtain ⟨e, he, hpe⟩ := hany
      obtain ⟨he2, hpred⟩ := List.mem_filter.mp he
      simp only [Bool.and_eq_true] at hpred
      have := hwf e he2 hpred.1.1 hpred.1.2
      rw [Option.isNone_iff_eq_none] at hpe
      rw [hpe] at this
      cases this
    constructor
    · intro hemp
      unfold rollback
      simp only [hcur]
      rw [show rollbackOthers fs cur = [] from hemp]
      rfl
    · intro hne
      unfold rollback
      simp only [hcur, hnone]
      cases hs : sortDesc rollbackKey (rollbackOthers fs cur) with
      | nil => exact absurd (sortDesc_eq_nil rollbackKey hs) hne
      | cons prev rest =>
        refine ⟨prev, ?_, sortDesc_head_max rollbackKey hs, ?_⟩
        · exact (sortDesc_mem_iff rollbackKey prev _).mp (hs ▸ List.mem_cons_self _ _)
        · simp [hs]

/-- Witness for C6 at a concrete state: v2 current among v1 and v2;
rollback repoints to v1, the highest other version. -/
theorem c6_witness :
    (rollback c3Fs).exitCode = 0 ∧
    (rollback c3Fs).fs.current = .symlink "v1" true := by
  have h := ((c6_rollback_repoints c3Fs (by decide)).2 "v2" rfl).2 (by decide)
  obtain ⟨prev, hmem, hmax, heq⟩ := h
  have hprev : prev = ⟨"v1", true⟩ := by
    rw [show rollbackOthers c3Fs "v2" = [⟨"v1", true⟩] from by decide] at hmem
    exact List.mem_singleton.mp hmem
  subst hprev
  rw [heq]
  exact ⟨rfl, rfl⟩

end AynaDeploy
